import Mathlib

/-!
Verification of the Yak ComfyUI n8n node (`src/nodes/YakComfyUI/YakComfyUI.node.ts`).

The development shallowly embeds the parts of the node that the claims
concern: the graph composer (`applyUserInputsToWorkflow` together with its
helper `setByPath`), the result normalizer (the if/else chains over the
Gatekeeper result in `execute`), the template scan (`getWorkflows` and
`loadWorkflowConfigFromDisk`), and the WebSocket await phase.

JSON values are modelled by the inductive `JValue`.  JavaScript objects are
represented as association lists in insertion order, which is the order
`JSON.parse` produces and `Object.entries` / `JSON.stringify` consume.
Numeric payloads are modelled as integers: every claim under verification is
insensitive to the numeric subtype, and none performs arithmetic on them.
-/

namespace YakNode

/-- A JSON value as produced by `JSON.parse`.  Objects keep their fields in
insertion order, exactly as JavaScript enumerates string keys. -/
inductive JValue where
  | null : JValue
  | bool : Bool → JValue
  | num : Int → JValue
  | str : String → JValue
  | arr : List JValue → JValue
  | obj : List (String × JValue) → JValue

/-- Field list of a JavaScript object. -/
abbrev JFields := List (String × JValue)

/-- Property read on an object's field list (`fields[k]`), first binding wins;
JavaScript objects have unique keys, so first-match is exact. -/
def objLookup : JFields → String → Option JValue
  | [], _ => none
  | (k', v) :: rest, k => if k' = k then some v else objLookup rest k

/-- Property write on an object's field list (`fields[k] = v`): an existing
key keeps its position, a new key is appended.  (JavaScript additionally
re-sorts integer-like keys numerically; no claim depends on that corner, and
the composer only creates non-integer keys along mapping paths.) -/
def objSet : JFields → String → JValue → JFields
  | [], k, v => [(k, v)]
  | (k', v') :: rest, k, v =>
    if k' = k then (k, v) :: rest else (k', v') :: objSet rest k v

/-- JavaScript truthiness of a JSON value (`!x` is `true` exactly when this
is `false`). -/
def truthy : JValue → Bool
  | .null => false
  | .bool b => b
  | .num n => n ≠ 0
  | .str s => s ≠ ""
  | .arr _ => true
  | .obj _ => true

/-- Property read on an arbitrary JSON value (`v[k]`): objects are looked
up, everything else yields `undefined` (modelled as `none`).  Reading a
property of a primitive yields `undefined` in JavaScript; the `null`
receiver, which would throw there, is never exercised by the claims. -/
def jsGet (v : JValue) (k : String) : Option JValue :=
  match v with
  | .obj fs => objLookup fs k
  | _ => none

mutual

/-- Structural rebuild of a JSON value.  `JSON.parse(JSON.stringify(x))`
acts as the identity on JSON-representable values; the deep copy taken by
the composer is modelled by this recursive reconstruction, which shares no
structure with its argument. -/
def deepCopy : JValue → JValue
  | .null => .null
  | .bool b => .bool b
  | .num n => .num n
  | .str s => .str s
  | .arr xs => .arr (deepCopyList xs)
  | .obj fs => .obj (deepCopyFields fs)

/-- Deep copy of an array's elements. -/
def deepCopyList : List JValue → List JValue
  | [] => []
  | x :: xs => deepCopy x :: deepCopyList xs

/-- Deep copy of an object's fields. -/
def deepCopyFields : JFields → JFields
  | [] => []
  | (k, v) :: fs => (k, deepCopy v) :: deepCopyFields fs

end

/-- Escape of one character inside a JSON string literal, as
`JSON.stringify` performs it.  (Control characters other than the common
named ones would be `\uXXXX`-escaped; no claim exercises them.) -/
def escapeJsonChar (c : Char) : String :=
  if c = '"' then "\\\""
  else if c = '\\' then "\\\\"
  else if c = '\n' then "\\n"
  else if c = '\t' then "\\t"
  else if c = '\r' then "\\r"
  else String.singleton c

/-- Escape of a whole string for a JSON string literal. -/
def escapeJson (s : String) : String :=
  s.data.foldl (fun acc c => acc ++ escapeJsonChar c) ""

mutual

/-- `JSON.stringify` with no spacing: the byte representation of a composed
graph, used to state byte-for-byte determinism. -/
def jsonStringify : JValue → String
  | .null => "null"
  | .bool true => "true"
  | .bool false => "false"
  | .num n => toString n
  | .str s => "\"" ++ escapeJson s ++ "\""
  | .arr xs => "[" ++ stringifyElems xs ++ "]"
  | .obj fs => "\x7b" ++ stringifyFields fs ++ "\x7d"

/-- Comma-separated serialization of array elements. -/
def stringifyElems : List JValue → String
  | [] => ""
  | [x] => jsonStringify x
  | x :: y :: rest => jsonStringify x ++ "," ++ stringifyElems (y :: rest)

/-- Comma-separated serialization of object fields, in stored order. -/
def stringifyFields : JFields → String
  | [] => ""
  | [(k, v)] => "\"" ++ escapeJson k ++ "\":" ++ jsonStringify v
  | (k, v) :: f2 :: rest =>
    "\"" ++ escapeJson k ++ "\":" ++ jsonStringify v ++ "," ++ stringifyFields (f2 :: rest)

end

/-- A mapping entry of a Parameter Schema Document
(`ui_inputs.json`'s `mappings` values): a node identifier in the graph
document and a dot-delimited field path inside that node's record. -/
structure Mapping where
  nodeId : String
  path : String

/-- A graph document: the top-level JSON object mapping node identifiers to
node records, as loaded from `workflow.json`. -/
abbrev GraphDoc := JFields

/-- The intermediate object the `setByPath` walk advances into:
`if (ref[key] === undefined || ref[key] === null) ref[key] = \x7b\x7d`. -/
def childFor : Option JValue → JValue
  | none => JValue.obj []
  | some .null => JValue.obj []
  | some c => c

/-- `YakComfyUI.setByPath` from the source: walk the dot-separated parts,
replacing an `undefined` or `null` intermediate with a fresh empty object,
and assign the value at the last part.  In strict-mode JavaScript an
assignment through a primitive receiver throws a `TypeError`; that outcome
is `none` here (the partially mutated copy an exception would leave behind
is observationally dead: the caller's `catch` discards the composition).
An array receiver, unrepresentable as a JSON-object write, also maps to the
error case; no mapping path of the claims traverses an array. -/
def setByPath : JValue → List String → JValue → Option JValue
  | .obj fs, [k], v => some (.obj (objSet fs k v))
  | .obj fs, k :: k2 :: rest, v =>
    (match setByPath (childFor (objLookup fs k)) (k2 :: rest) v with
     | some c2 => some (.obj (objSet fs k c2))
     | none => none)
  | _, _, _ => none

/-- Pure read along a field path: the location a mapping entry writes to. -/
def getPath : JValue → List String → Option JValue
  | v, [] => some v
  | .obj fs, k :: rest =>
    (match objLookup fs k with
     | some c => getPath c rest
     | none => none)
  | _, _ :: _ => none

/-- Read a field path inside one node of a graph document. -/
def getGraphPath (g : GraphDoc) (n : String) (parts : List String) : Option JValue :=
  match objLookup g n with
  | some v => getPath v parts
  | none => none

/-- The char-level walk of `split('.')`: cut at every dot, keeping empty
segments, exactly as JavaScript's `String.prototype.split` with a
one-character separator. -/
def splitDotAux : List Char → List Char → List String
  | [], acc => [String.mk acc.reverse]
  | c :: cs, acc =>
    if c = '.' then String.mk acc.reverse :: splitDotAux cs []
    else splitDotAux cs (c :: acc)

/-- `pathStr.split('.')` of a mapping entry's field path. -/
def splitDot (s : String) : List String :=
  splitDotAux s.data []

/-- One iteration of the mapping loop in `applyUserInputsToWorkflow`:
skip when the node record is absent or falsy; write the supplied batch size
when the entry is the reserved batch-size binding; otherwise write the
caller's value when one is defined, and leave the template value alone when
none is. -/
def applyEntry (userInputs : JFields) (batchSize : Int)
    (modified : GraphDoc) (entry : String × Mapping) : Option GraphDoc :=
  match objLookup modified entry.2.nodeId with
  | none => some modified
  | some node =>
    if truthy node then
      if entry.1 = "batchSize" ∧ entry.2.path = "inputs.batch_size" then
        (setByPath node (splitDot entry.2.path) (.num batchSize)).map
          (objSet modified entry.2.nodeId)
      else
        match objLookup userInputs entry.1 with
        | some v =>
          (setByPath node (splitDot entry.2.path) v).map
            (objSet modified entry.2.nodeId)
        | none => some modified
    else some modified

/-- The `for (const [inputName, mapping] of Object.entries(mappings))` loop,
iterating in the mapping object's insertion order; a thrown `TypeError`
from `setByPath` aborts the whole composition (`none`). -/
def applyLoop (userInputs : JFields) (batchSize : Int) :
    GraphDoc → List (String × Mapping) → Option GraphDoc
  | modified, [] => some modified
  | modified, e :: rest =>
    match applyEntry userInputs batchSize modified e with
    | some m2 => applyLoop userInputs batchSize m2 rest
    | none => none

/-- `YakComfyUI.applyUserInputsToWorkflow`: deep-copy the template graph,
then run the mapping loop on the copy. -/
def applyUserInputsToWorkflow (workflow : GraphDoc) (userInputs : JFields)
    (mappings : List (String × Mapping)) (batchSize : Int) : Option GraphDoc :=
  applyLoop userInputs batchSize (deepCopyFields workflow) mappings

/-- The mapping loop with the enclosing scope made explicit: the first
component carries the `workflow` binding (the source graph document), the
second the `modified` copy all writes land on.  No statement of the loop
assigns to `workflow` or writes through it, which the state threading makes
syntactically evident. -/
def applyLoopS (userInputs : JFields) (batchSize : Int) :
    GraphDoc × GraphDoc → List (String × Mapping) → GraphDoc × Option GraphDoc
  | (source, modified), [] => (source, some modified)
  | (source, modified), e :: rest =>
    match applyEntry userInputs batchSize modified e with
    | some m2 => applyLoopS userInputs batchSize (source, m2) rest
    | none => (source, none)

/-- `applyUserInputsToWorkflow` with the source graph document threaded
through the loop alongside the copy. -/
def applyUserInputsToWorkflowS (workflow : GraphDoc) (userInputs : JFields)
    (mappings : List (String × Mapping)) (batchSize : Int) :
    GraphDoc × Option GraphDoc :=
  applyLoopS userInputs batchSize (workflow, deepCopyFields workflow) mappings

/-- Serialized bytes of a composition result: the `workflow_json` body the
node would hand to the HTTP layer, `JSON.stringify`-ed. -/
def composedBytes (r : Option GraphDoc) : Option String :=
  r.map (fun g => jsonStringify (.obj g))

/-- `beginsWith q t`: the path parts `q` are an initial segment of `t`.
Used to delimit which later mapping entries can disturb a written leaf. -/
def beginsWith : List String → List String → Bool
  | [], _ => true
  | _ :: _, [] => false
  | a :: q, b :: t => a = b && beginsWith q t

/-- The binary attachment produced for a `binary`-tagged result record.
`Buffer.from(data, 'base64')` (lenient, never throwing on strings) and the
host's `prepareBinaryData` are collaborators outside the core; the
attachment records the arguments the node passes them. -/
structure BinaryAttachment where
  data : Option JValue
  filename : Option JValue
  mimeType : JValue

/-- One output item handed back to the host (`INodeExecutionData`): the
structured `json` fields, whose values mirror JavaScript's
possibly-`undefined` property reads, and the optional binary attachment.
The `pairedItem` bookkeeping, identical on every branch, is omitted. -/
structure OutputItem where
  json : List (String × Option JValue)
  binary : Option BinaryAttachment

/-- `result.format === tag` for a string tag. -/
def formatIs (result : JValue) (tag : String) : Bool :=
  match jsGet result "format" with
  | some (.str s) => s = tag
  | _ => false

/-- Truthiness of `result.data` (`undefined` when the field is absent). -/
def dataTruthy (result : JValue) : Bool :=
  match jsGet result "data" with
  | some d => truthy d
  | none => false

/-- `result.mime_type || 'image/png'`. -/
def mimeOrDefault (m : Option JValue) : JValue :=
  match m with
  | some v => if truthy v then v else .str "image/png"
  | none => .str "image/png"

/-- The output item built on the `binary` branch. -/
def mkBinaryItem (result : JValue) : OutputItem :=
  { json := []
    binary := some
      { data := jsGet result "data"
        filename := jsGet result "filename"
        mimeType := mimeOrDefault (jsGet result "mime_type") } }

/-- The output item built on the `filePath` branch. -/
def mkFilePathItem (result : JValue) : OutputItem :=
  { json := [("filePath", jsGet result "data"),
             ("filename", jsGet result "filename"),
             ("type", jsGet result "type")]
    binary := none }

/-- The output item built on the `text` branch. -/
def mkTextItem (result : JValue) : OutputItem :=
  { json := [("text", jsGet result "data")], binary := none }

/-- The fallback item for a record inside a batch. -/
def batchErrorItem (result : JValue) : OutputItem :=
  { json := [("error", some (.str "Received an unexpected result format in batch.")),
             ("rawResult", some result)]
    binary := none }

/-- The fallback item for a single (non-batch) payload. -/
def singleErrorItem (result : JValue) : OutputItem :=
  { json := [("error", some (.str "Received an unexpected or empty result from the Gatekeeper.")),
             ("rawResult", some result)]
    binary := none }

/-- The per-record if/else chain inside the batch loop of `execute`:
each format branch fires only when the tag matches and `result.data` is
truthy; everything else falls through to the error item. -/
def normalizeRecord (result : JValue) : OutputItem :=
  if formatIs result "binary" && dataTruthy result then mkBinaryItem result
  else if formatIs result "filePath" && dataTruthy result then mkFilePathItem result
  else if formatIs result "text" && dataTruthy result then mkTextItem result
  else batchErrorItem result

/-- The same chain applied to a single (non-batch) final result. -/
def normalizeSingle (result : JValue) : OutputItem :=
  if formatIs result "binary" && dataTruthy result then mkBinaryItem result
  else if formatIs result "filePath" && dataTruthy result then mkFilePathItem result
  else if formatIs result "text" && dataTruthy result then mkTextItem result
  else singleErrorItem result

/-- Result processing in `execute`: a payload tagged `multiple` with a
`results` array fans out to one item per record, in order; anything else is
normalized as a single payload.  (A truthy non-array `results`, which
`for...of` could not iterate, is outside the Result Payload shape and is
routed to the single branch here.) -/
def processResults (finalResult : JValue) : List OutputItem :=
  match jsGet finalResult "format", jsGet finalResult "results" with
  | some (.str "multiple"), some (.arr rs) => rs.map normalizeRecord
  | _, _ => [normalizeSingle finalResult]

/-- The first event observed by the await phase's WebSocket race: the
timer, a message (already split by whether `JSON.parse` accepts it), or a
transport error.  Exactly one of these settles the promise; which one is
the oracle input that abstracts wall-clock time. -/
inductive WsFirstEvent where
  | timerFired : WsFirstEvent
  | message : Option JValue → WsFirstEvent
  | transportError : String → WsFirstEvent

/-- Outcome of the await phase: whether the client called `ws.close()`, and
the settled value of the promise. -/
structure AwaitOutcome where
  channelClosed : Bool
  result : Except String JValue

/-- The hard-coded await window of the WebSocket race, in milliseconds. -/
def awaitTimeoutMs : Nat := 60000

/-- The await phase of `execute` as a function of the first event: the
timer handler closes the socket and rejects with the timeout error; a
message clears the timer, closes the socket and resolves (or rejects on a
parse failure); the error handler clears the timer and rejects without
closing. -/
def awaitFirstEvent : WsFirstEvent → AwaitOutcome
  | .timerFired =>
    { channelClosed := true
      result := .error "Job timed out. No response from Gatekeeper WebSocket." }
  | .message (some v) => { channelClosed := true, result := .ok v }
  | .message none =>
    { channelClosed := true
      result := .error "Failed to parse WebSocket message from Gatekeeper." }
  | .transportError m =>
    { channelClosed := false
      result := .error ("WebSocket connection error: " ++ m) }

/-- One entry of the workflows root directory as `fs.readdir` with
`withFileTypes` reports it: its name, whether it is a directory, and its
files.  A file is a pair of its name and its `JSON.parse` result, `none`
when the content is unparseable; a file absent from the list does not
exist (its `fs.access` / `fs.readFile` fail). -/
structure DirEntry where
  name : String
  isDirectory : Bool
  files : List (String × Option JValue)

/-- `fs.access` success for a file of a template directory. -/
def hasFile (e : DirEntry) (fname : String) : Bool :=
  e.files.any (fun f => f.1 = fname)

/-- Read and `JSON.parse` a file of a template directory: `none` when the
file is missing or its content does not parse. -/
def readParse (e : DirEntry) (fname : String) : Option JValue :=
  match e.files.find? (fun f => f.1 = fname) with
  | some f => f.2
  | none => none

/-- One option of the workflow dropdown (`INodePropertyOptions`). -/
structure SelectOption where
  name : String
  value : String
  description : String

/-- A `\w` word character of JavaScript regexes: ASCII letter, digit or
underscore. -/
def isWordChar (c : Char) : Bool :=
  c.isAlphanum || c = '_'

/-- `.replace(/\b\w/g, l => l.toUpperCase())`: uppercase every word
character that starts a word (preceded by a non-word character or the
start of the string). -/
def capitalizeWordStarts (s : String) : String :=
  (s.data.foldl
    (fun (st : Bool × String) c =>
      let out := if isWordChar c && !st.1 then c.toUpper else c
      (isWordChar c, st.2.push out))
    (false, "")).2

/-- The global hyphen-to-space replacement applied to a slug before
capitalization. -/
def replaceHyphens (s : String) : String :=
  String.mk (s.data.map (fun c => if c = '-' then ' ' else c))

/-- The dropdown label: hyphens replaced by spaces, then word starts
capitalized. -/
def prettifyName (slug : String) : String :=
  capitalizeWordStarts (replaceHyphens slug)

/-- `getWorkflows`, the template scan, over the abstract directory listing:
keep every subdirectory holding an accessible `workflow.json` (content
never read), fail when none remains, and otherwise build the dropdown
options. -/
def getWorkflows (entries : List DirEntry) : Except String (List SelectOption) :=
  let workflows :=
    (entries.filter (fun e => e.isDirectory && hasFile e "workflow.json")).map
      (fun e => e.name)
  if workflows = [] then
    .error "No workflows found. Ensure each workflow folder contains a workflow.json file."
  else
    .ok (workflows.map (fun w =>
      { name := prettifyName w
        value := w
        description := "Execute the " ++ w ++ " workflow" }))

/-- `loadWorkflowConfigFromDisk`: read and parse both documents of one
template; any missing or unparseable file rejects the `Promise.all` and is
rethrown as a `NodeOperationError`, fatal for this operation. -/
def loadWorkflowConfigFromDisk (e : DirEntry) : Except String (JValue × JValue) :=
  match readParse e "workflow.json", readParse e "ui_inputs.json" with
  | some w, some u => .ok (w, u)
  | _, _ => .error ("Failed to load config for workflow '" ++ e.name ++ "'")

/-- A Parameter Definition of a Parameter Schema Document
(`ui_inputs.json`'s `properties`): its name, declared value kind, and
default. -/
structure ParamDef where
  name : String
  type : String
  default : Option JValue

/-- The dynamic-input gathering loop of `execute`: each declared parameter
is fetched from the host (`getNodeParameter`), falling back to the declared
default (or the empty string) when the host fails; the declared value kind
is never consulted and no coercion is applied to the host's value. -/
def gatherUserInputs (getParam : String → Option JValue) (props : List ParamDef) :
    JFields :=
  props.map (fun p => (p.name, ((getParam p.name).getD (p.default.getD (.str "")))))

/-- Whether a JSON value is of numeric type. -/
def isNumeric : JValue → Bool
  | .num _ => true
  | _ => false

/-- A one-node graph document whose node `"1"` holds `inputs.batch_size`. -/
def c1Graph : GraphDoc := [("1", .obj [("inputs", .obj [("batch_size", .num 1)])])]

/-- Caller values with no `batchSize` entry but a value for `other`. -/
def c1Values : JFields := [("other", .num 7)]

/-- A mapping set binding the reserved batch parameter and, after it, a
second parameter to the very same field location. -/
def c1Mappings : List (String × Mapping) :=
  [("batchSize", ⟨"1", "inputs.batch_size"⟩), ("other", ⟨"1", "inputs.batch_size"⟩)]

/-- The graph `applyUserInputsToWorkflow` composes from `c1Graph`,
`c1Values`, `c1Mappings` and batch size 5: the later mapping overwrote the
batch-size write. -/
def c1Composed : GraphDoc := [("1", .obj [("inputs", .obj [("batch_size", .num 7)])])]

/-- One Parameter Definition declaring value kind `number`. -/
def c2Props : List ParamDef := [⟨"seed", "number", some (.num 0)⟩]

/-- A host that hands the `seed` parameter back as the string `"42"`. -/
def c2Host : String → Option JValue :=
  fun k => if k = "seed" then some (.str "42") else none

/-- A one-node graph document holding a numeric `inputs.seed`. -/
def c2Graph : GraphDoc := [("3", .obj [("inputs", .obj [("seed", .num 0)])])]

/-- The mapping binding `seed` into node `"3"`. -/
def c2Mappings : List (String × Mapping) := [("seed", ⟨"3", "inputs.seed"⟩)]

/-- The graph composed from `c2Graph` with the string-valued `seed`: the
string is written verbatim into the numeric field. -/
def c2Composed : GraphDoc := [("3", .obj [("inputs", .obj [("seed", .str "42")])])]

/-- A two-parameter graph document for the determinism witness. -/
def c3Graph : GraphDoc :=
  [("5", .obj [("inputs", .obj [("seed", .num 0), ("steps", .num 1)])])]

/-- Mappings for both parameters of `c3Graph`. -/
def c3Mappings : List (String × Mapping) :=
  [("seed", ⟨"5", "inputs.seed"⟩), ("steps", ⟨"5", "inputs.steps"⟩)]

/-- Caller values in one key order. -/
def c3Values1 : JFields := [("seed", .num 42), ("steps", .num 20)]

/-- The same caller-value bindings in the opposite key order. -/
def c3Values2 : JFields := [("steps", .num 20), ("seed", .num 42)]

/-- A graph document without any node `"2"`. -/
def c5Graph : GraphDoc := [("1", .obj [("inputs", .obj [("text", .str "hi")])])]

/-- A batch record tagged `binary` with truthy base64 data. -/
def c6r1 : JValue :=
  .obj [("format", .str "binary"), ("data", .str "QUJD"), ("filename", .str "img.png")]

/-- A batch record tagged `text` with truthy data. -/
def c6r2 : JValue := .obj [("format", .str "text"), ("data", .str "hello")]

/-- A batch record with an unrecognized format tag. -/
def c6r3 : JValue := .obj [("format", .str "mystery"), ("data", .str "x")]

/-- A Result Payload tagged as a batch of the three mixed records. -/
def c6Payload : JValue :=
  .obj [("format", .str "multiple"), ("results", .arr [c6r1, c6r2, c6r3])]

/-- A template directory whose Graph Document file exists but does not
parse. -/
def brokenEntry : DirEntry := ⟨"broken-template", true, [("workflow.json", none)]⟩

/-- A `text`-tagged record whose data is the empty string (falsy). -/
def c10Record : JValue := .obj [("format", .str "text"), ("data", .str "")]

mutual

theorem deepCopy_id : ∀ v : JValue, deepCopy v = v
  | .null => rfl
  | .bool _ => rfl
  | .num _ => rfl
  | .str _ => rfl
  | .arr xs => by rw [deepCopy, deepCopyList_id xs]
  | .obj fs => by rw [deepCopy, deepCopyFields_id fs]

theorem deepCopyList_id : ∀ xs : List JValue, deepCopyList xs = xs
  | [] => rfl
  | x :: xs => by rw [deepCopyList, deepCopy_id x, deepCopyList_id xs]

theorem deepCopyFields_id : ∀ fs : JFields, deepCopyFields fs = fs
  | [] => rfl
  | (k, v) :: fs => by rw [deepCopyFields, deepCopy_id v, deepCopyFields_id fs]

end

theorem objLookup_objSet_self (fs : JFields) (k : String) (v : JValue) :
    objLookup (objSet fs k v) k = some v := by
  induction fs with
  | nil => simp [objSet, objLookup]
  | cons p rest ih =>
    by_cases h : p.1 = k
    · simp [objSet, h, objLookup]
    · simp [objSet, h, objLookup, ih]

theorem objLookup_objSet_ne (fs : JFields) (k k2 : String) (v : JValue)
    (h : k ≠ k2) : objLookup (objSet fs k2 v) k = objLookup fs k := by
  have hne : ¬ k2 = k := fun hh => h hh.symm
  induction fs with
  | nil => simp [objSet, objLookup, hne]
  | cons p rest ih =>
    obtain ⟨k', v'⟩ := p
    by_cases h2 : k' = k2
    · subst h2
      simp [objSet, objLookup, hne]
    · by_cases h3 : k' = k
      · subst h3
        simp [objSet, objLookup, h2]
      · simp [objSet, h2, objLookup, h3, ih]


theorem childFor_of_ne_null (c : JValue) (h : c ≠ JValue.null) :
    childFor (some c) = c := by
  cases c
  case null => exact absurd rfl h
  all_goals simp [childFor]

theorem setByPath_obj {o o' v : JValue} {q : List String}
    (h : setByPath o q v = some o') : ∃ fs, o' = JValue.obj fs := by
  cases q with
  | nil => cases o <;> simp [setByPath] at h
  | cons k q' =>
    cases q' with
    | nil =>
      cases o <;> simp [setByPath] at h
      case obj fs => exact ⟨_, h.symm⟩
    | cons k2 rest =>
      cases o <;> simp only [setByPath] at h <;>
        first
        | exact absurd h (by simp)
        | (cases hs : setByPath (childFor (objLookup ‹JFields› k)) (k2 :: rest) v with
           | none => rw [hs] at h; exact absurd h (by simp)
           | some c2 => rw [hs] at h; simp at h; exact ⟨_, h.symm⟩)

theorem setByPath_get {o o' v : JValue} {q : List String}
    (h : setByPath o q v = some o') : getPath o' q = some v := by
  induction q generalizing o o' with
  | nil => cases o <;> simp [setByPath] at h
  | cons k q' ih =>
    cases q' with
    | nil =>
      cases o <;> simp [setByPath] at h
      case obj fs =>
        rw [← h]
        simp [getPath, objLookup_objSet_self]
    | cons k2 rest =>
      cases o <;> simp only [setByPath] at h <;> try exact absurd h (by simp)
      case obj fs =>
        cases hs : setByPath (childFor (objLookup fs k)) (k2 :: rest) v with
        | none => rw [hs] at h; simp at h
        | some c2 =>
          rw [hs] at h
          simp at h
          rw [← h]
          simp [getPath, objLookup_objSet_self]
          exact ih hs

theorem getPath_setByPath_num {o o' v : JValue} {q t : List String} {bb : Int}
    (hs : setByPath o q v = some o') (hb : beginsWith q t = false)
    (hg : getPath o t = some (.num bb)) : getPath o' t = some (.num bb) := by
  induction q generalizing o o' t with
  | nil => cases o <;> simp [setByPath] at hs
  | cons k q' ih =>
    cases q' with
    | nil =>
      cases o <;> simp [setByPath] at hs
      case obj fs =>
        cases t with
        | nil => simp [getPath] at hg
        | cons k' t' =>
          simp [beginsWith] at hb
          rw [← hs]
          simp only [getPath]
          rw [objLookup_objSet_ne fs k' k v (fun hh => hb hh.symm)]
          exact hg
    | cons k2 rest =>
      cases o <;> simp only [setByPath] at hs <;>
        first
        | exact absurd hs (by simp)
        | skip
      case obj fs =>
        cases hcc : setByPath (childFor (objLookup fs k)) (k2 :: rest) v with
        | none => rw [hcc] at hs; exact absurd hs (by simp)
        | some c2 =>
          rw [hcc] at hs
          simp at hs
          cases t with
          | nil => simp [getPath] at hg
          | cons k' t' =>
            by_cases hk : k = k'
            · subst hk
              simp [beginsWith] at hb
              simp only [getPath] at hg
              cases hlk : objLookup fs k with
              | none => rw [hlk] at hg; simp at hg
              | some c0 =>
                rw [hlk] at hg
                have hc0 : c0 ≠ JValue.null := by
                  intro hnull
                  subst hnull
                  cases t' <;> simp [getPath] at hg
                rw [← hs]
                simp only [getPath]
                rw [objLookup_objSet_self]
                rw [hlk, childFor_of_ne_null c0 hc0] at hcc
                exact ih hcc hb hg
            · rw [← hs]
              simp only [getPath] at hg ⊢
              rw [objLookup_objSet_ne fs k' k c2 (fun hh => hk hh.symm)]
              exact hg

theorem applyEntry_shape {ui : JFields} {b : Int} {m m2 : GraphDoc}
    {e : String × Mapping} (h : applyEntry ui b m e = some m2) :
    m2 = m ∨ ∃ node node' val, objLookup m e.2.nodeId = some node ∧
      setByPath node (splitDot e.2.path) val = some node' ∧
      m2 = objSet m e.2.nodeId node' := by
  unfold applyEntry at h
  cases hlk : objLookup m e.2.nodeId with
  | none => rw [hlk] at h; simp at h; exact Or.inl h.symm
  | some node =>
    rw [hlk] at h
    simp only at h
    by_cases ht : truthy node
    · rw [if_pos ht] at h
      by_cases hc : e.1 = "batchSize" ∧ e.2.path = "inputs.batch_size"
      · rw [if_pos hc] at h
        cases hs : setByPath node (splitDot e.2.path) (.num b) with
        | none => rw [hs] at h; simp at h
        | some node' =>
          rw [hs] at h
          simp at h
          exact Or.inr ⟨node, node', .num b, rfl, hs, h.symm⟩
      · rw [if_neg hc] at h
        cases hu : objLookup ui e.1 with
        | none => rw [hu] at h; simp at h; exact Or.inl h.symm
        | some v =>
          rw [hu] at h
          simp only at h
          cases hs : setByPath node (splitDot e.2.path) v with
          | none => rw [hs] at h; simp at h
          | some node' =>
            rw [hs] at h
            simp at h
            exact Or.inr ⟨node, node', v, rfl, hs, h.symm⟩
    · rw [if_neg ht] at h
      simp at h
      exact Or.inl h.symm

theorem applyEntry_preserves_noneAt {ui : JFields} {b : Int} {m m2 : GraphDoc}
    {e : String × Mapping} {n : String} (h : applyEntry ui b m e = some m2)
    (hn : objLookup m n = none) : objLookup m2 n = none := by
  rcases applyEntry_shape h with heq | ⟨node, node', val, hlk, _, heq⟩
  · rw [heq]; exact hn
  · rw [heq]
    have hne : n ≠ e.2.nodeId := by
      intro hh; rw [hh, hlk] at hn; exact Option.noConfusion hn
    rw [objLookup_objSet_ne m n e.2.nodeId node' hne]
    exact hn

theorem applyEntry_preserves_truthyAt {ui : JFields} {b : Int} {m m2 : GraphDoc}
    {e : String × Mapping} {n : String} (h : applyEntry ui b m e = some m2)
    (hn : ∃ node, objLookup m n = some node ∧ truthy node = true) :
    ∃ node, objLookup m2 n = some node ∧ truthy node = true := by
  rcases applyEntry_shape h with heq | ⟨node, node', val, hlk, hs, heq⟩
  · rw [heq]; exact hn
  · rw [heq]
    by_cases hne : n = e.2.nodeId
    · refine ⟨node', ?_, ?_⟩
      · rw [hne]; exact objLookup_objSet_self m e.2.nodeId node'
      · rcases setByPath_obj hs with ⟨fs, hfs⟩
        rw [hfs]; rfl
    · rw [objLookup_objSet_ne m n e.2.nodeId node' hne]
      exact hn

theorem applyEntry_preserves_numAt {ui : JFields} {b bb : Int} {m m2 : GraphDoc}
    {e : String × Mapping} {n : String} (h : applyEntry ui b m e = some m2)
    (hb : e.2.nodeId = n →
      beginsWith (splitDot e.2.path) ["inputs", "batch_size"] = false)
    (hg : getGraphPath m n ["inputs", "batch_size"] = some (.num bb)) :
    getGraphPath m2 n ["inputs", "batch_size"] = some (.num bb) := by
  rcases applyEntry_shape h with heq | ⟨node, node', val, hlk, hs, heq⟩
  · rw [heq]; exact hg
  · rw [heq]
    by_cases hne : e.2.nodeId = n
    · subst hne
      unfold getGraphPath at hg ⊢
      rw [hlk] at hg
      rw [objLookup_objSet_self]
      exact getPath_setByPath_num hs (hb rfl) hg
    · unfold getGraphPath at hg ⊢
      rw [objLookup_objSet_ne m n e.2.nodeId node' (fun hh => hne hh.symm)]
      exact hg

theorem applyLoop_append (ui : JFields) (b : Int) (m : GraphDoc)
    (l1 l2 : List (String × Mapping)) :
    applyLoop ui b m (l1 ++ l2) =
      (applyLoop ui b m l1).bind (fun m2 => applyLoop ui b m2 l2) := by
  induction l1 generalizing m with
  | nil => simp [applyLoop]
  | cons e rest ih =>
    simp only [List.cons_append, applyLoop]
    cases applyEntry ui b m e with
    | none => simp
    | some m2 => simp [ih]

theorem applyLoop_preserves_noneAt {ui : JFields} {b : Int} {n : String} :
    ∀ {ms : List (String × Mapping)} {m final : GraphDoc},
      applyLoop ui b m ms = some final → objLookup m n = none →
      objLookup final n = none := by
  intro ms
  induction ms with
  | nil => intro m final h hn; simp [applyLoop] at h; rw [← h]; exact hn
  | cons e rest ih =>
    intro m final h hn
    simp only [applyLoop] at h
    cases he : applyEntry ui b m e with
    | none => rw [he] at h; simp at h
    | some m2 =>
      rw [he] at h
      exact ih h (applyEntry_preserves_noneAt he hn)

theorem applyLoop_preserves_truthyAt {ui : JFields} {b : Int} {n : String} :
    ∀ {ms : List (String × Mapping)} {m final : GraphDoc},
      applyLoop ui b m ms = some final →
      (∃ node, objLookup m n = some node ∧ truthy node = true) →
      ∃ node, objLookup final n = some node ∧ truthy node = true := by
  intro ms
  induction ms with
  | nil => intro m final h hn; simp [applyLoop] at h; rw [← h]; exact hn
  | cons e rest ih =>
    intro m final h hn
    simp only [applyLoop] at h
    cases he : applyEntry ui b m e with
    | none => rw [he] at h; simp at h
    | some m2 =>
      rw [he] at h
      exact ih h (applyEntry_preserves_truthyAt he hn)

theorem applyLoop_preserves_numAt {ui : JFields} {b bb : Int} {n : String} :
    ∀ {ms : List (String × Mapping)} {m final : GraphDoc},
      applyLoop ui b m ms = some final →
      (∀ e ∈ ms, e.2.nodeId = n →
        beginsWith (splitDot e.2.path) ["inputs", "batch_size"] = false) →
      getGraphPath m n ["inputs", "batch_size"] = some (.num bb) →
      getGraphPath final n ["inputs", "batch_size"] = some (.num bb) := by
  intro ms
  induction ms with
  | nil => intro m final h _ hg; simp [applyLoop] at h; rw [← h]; exact hg
  | cons e rest ih =>
    intro m final h hall hg
    simp only [applyLoop] at h
    cases he : applyEntry ui b m e with
    | none => rw [he] at h; simp at h
    | some m2 =>
      rw [he] at h
      refine ih h (fun e2 he2 => hall e2 (List.mem_cons_of_mem e he2)) ?_
      exact applyEntry_preserves_numAt he (hall e (List.mem_cons_self e rest)) hg

theorem applyLoopS_fst (ui : JFields) (b : Int) (s m : GraphDoc)
    (ms : List (String × Mapping)) : (applyLoopS ui b (s, m) ms).1 = s := by
  induction ms generalizing m with
  | nil => rfl
  | cons e rest ih =>
    simp only [applyLoopS]
    cases applyEntry ui b m e with
    | none => rfl
    | some m2 => exact ih m2

theorem applyLoopS_snd (ui : JFields) (b : Int) (s m : GraphDoc)
    (ms : List (String × Mapping)) :
    (applyLoopS ui b (s, m) ms).2 = applyLoop ui b m ms := by
  induction ms generalizing m with
  | nil => rfl
  | cons e rest ih =>
    simp only [applyLoopS, applyLoop]
    cases applyEntry ui b m e with
    | none => rfl
    | some m2 => exact ih m2

theorem applyEntry_ui_ext {ui1 ui2 : JFields}
    (h : ∀ k, objLookup ui1 k = objLookup ui2 k) (b : Int) (m : GraphDoc)
    (e : String × Mapping) : applyEntry ui1 b m e = applyEntry ui2 b m e := by
  unfold applyEntry
  simp only [h e.1]

theorem applyLoop_ui_ext {ui1 ui2 : JFields}
    (h : ∀ k, objLookup ui1 k = objLookup ui2 k) (b : Int)
    (ms : List (String × Mapping)) (m : GraphDoc) :
    applyLoop ui1 b m ms = applyLoop ui2 b m ms := by
  induction ms generalizing m with
  | nil => rfl
  | cons e rest ih =>
    simp only [applyLoop, applyEntry_ui_ext h b m e]
    cases applyEntry ui2 b m e with
    | none => rfl
    | some m2 => exact ih m2

/-- C4: the composer never mutates its source graph document: for every
graph, caller values, mapping set and batch size, the `workflow` binding
carried through the whole loop still holds the original graph afterwards,
the deep copy the writes land on reproduces the source exactly, and the
state-threaded run computes the very composition `applyUserInputsToWorkflow`
returns. -/
theorem claim4_source_graph_unchanged (w : GraphDoc) (ui : JFields)
    (ms : List (String × Mapping)) (b : Int) :
    (applyUserInputsToWorkflowS w ui ms b).1 = w ∧
    deepCopyFields w = w ∧
    (applyUserInputsToWorkflowS w ui ms b).2 = applyUserInputsToWorkflow w ui ms b :=
  ⟨applyLoopS_fst ui b w (deepCopyFields w) ms, deepCopyFields_id w,
    applyLoopS_snd ui b w (deepCopyFields w) ms⟩

/-- C5: a mapping entry whose node identifier is not a key of the graph
document is skipped silently: composing with the entry yields exactly the
same result (including the absence of any error) as composing with the
entry removed. -/
theorem claim5_dangling_mapping_skipped (g : GraphDoc) (ui : JFields) (b : Int)
    (pre post : List (String × Mapping)) (name : String) (mp : Mapping)
    (h : objLookup g mp.nodeId = none) :
    applyUserInputsToWorkflow g ui (pre ++ (name, mp) :: post) b =
      applyUserInputsToWorkflow g ui (pre ++ post) b := by
  unfold applyUserInputsToWorkflow
  rw [deepCopyFields_id, applyLoop_append, applyLoop_append]
  cases hpre : applyLoop ui b g pre with
  | none => rfl
  | some mid =>
    have hnone : objLookup mid mp.nodeId = none := applyLoop_preserves_noneAt hpre h
    have hstep : applyEntry ui b mid (name, mp) = some mid := by
      unfold applyEntry
      rw [hnone]
    show applyLoop ui b mid ((name, mp) :: post) = applyLoop ui b mid post
    simp only [applyLoop, hstep]

/-- C5 witness: a mapping to the nonexistent node `"2"` of `c5Graph` leaves
the composition exactly as if the mapping set were empty. -/
theorem claim5_dangling_mapping_skipped_witness :
    objLookup c5Graph "2" = none ∧
    applyUserInputsToWorkflow c5Graph [("foo", .str "bar")]
        [("foo", ⟨"2", "inputs.text"⟩)] 1
      = applyUserInputsToWorkflow c5Graph [("foo", .str "bar")] [] 1 :=
  ⟨rfl, claim5_dangling_mapping_skipped c5Graph [("foo", .str "bar")] 1 [] []
    "foo" ⟨"2", "inputs.text"⟩ rfl⟩

/-- C3: composition is deterministic and does not consult the ordering of
the caller-value object: two runs over caller values with identical
bindings (in any key order) produce byte-identical serialized composed
graphs. -/
theorem claim3_compose_deterministic (g : GraphDoc)
    (ms : List (String × Mapping)) (b : Int) (ui1 ui2 : JFields)
    (h : ∀ k, objLookup ui1 k = objLookup ui2 k) :
    composedBytes (applyUserInputsToWorkflow g ui1 ms b) =
      composedBytes (applyUserInputsToWorkflow g ui2 ms b) := by
  unfold applyUserInputsToWorkflow
  rw [applyLoop_ui_ext h b ms (deepCopyFields g)]

/-- C3 witness: the same two caller-value bindings in opposite key orders
compose `c3Graph` to byte-identical graphs. -/
theorem claim3_compose_deterministic_witness :
    composedBytes (applyUserInputsToWorkflow c3Graph c3Values1 c3Mappings 1) =
      composedBytes (applyUserInputsToWorkflow c3Graph c3Values2 c3Mappings 1) := by
  refine claim3_compose_deterministic c3Graph c3Mappings 1 c3Values1 c3Values2 ?_
  intro k
  by_cases h1 : ("seed" : String) = k
  · subst h1
    rfl
  · by_cases h2 : ("steps" : String) = k
    · subst h2
      rfl
    · simp [c3Values1, c3Values2, objLookup, h1, h2]

/-- C1 counterexample: with `c1Mappings` binding the reserved batch
parameter to `inputs.batch_size` at node `"1"` of `c1Graph` (present), and
no `batchSize` key in the caller values, the composed graph holds 7 — the
later mapping entry's caller value — at that location, not the supplied
batch size 5.  The claim as stated is therefore false. -/
theorem claim1_batchSize_precedence_counterexample :
    applyUserInputsToWorkflow c1Graph c1Values c1Mappings 5 = some c1Composed ∧
    ("batchSize", Mapping.mk "1" "inputs.batch_size") ∈ c1Mappings ∧
    objLookup c1Graph "1" = some (.obj [("inputs", .obj [("batch_size", .num 1)])]) ∧
    objLookup c1Values "batchSize" = none ∧
    getGraphPath c1Composed "1" ["inputs", "batch_size"] = some (.num 7) ∧
    getGraphPath c1Composed "1" ["inputs", "batch_size"] ≠ some (.num 5) := by
  refine ⟨rfl, List.mem_cons_self _ _, rfl, rfl, rfl, ?_⟩
  intro hbad
  have h7 : getGraphPath c1Composed "1" ["inputs", "batch_size"] = some (.num 7) := rfl
  rw [h7] at hbad
  injection hbad with hbad2
  injection hbad2 with hbad3
  exact absurd hbad3 (by decide)

/-- C1 amended: if the mapping set binds the parameter name `batchSize` to
the field path `inputs.batch_size` at a node identifier whose record in the
graph is present and truthy, no mapping entry after that binding targets
the same node with a path that is an initial segment of
`inputs.batch_size`, and the composition succeeds, then the composed graph
holds the supplied batch size at that location — irrespective of any value
(or no value) stored under the key `batchSize` in the caller values. -/
theorem claim1_batchSize_precedence_amended (g : GraphDoc) (ui : JFields)
    (b : Int) (pre post : List (String × Mapping)) (n : String)
    (final : GraphDoc)
    (hnode : ∃ node, objLookup g n = some node ∧ truthy node = true)
    (hpost : ∀ e ∈ post, e.2.nodeId = n →
      beginsWith (splitDot e.2.path) ["inputs", "batch_size"] = false)
    (hrun : applyUserInputsToWorkflow g ui
      (pre ++ ("batchSize", Mapping.mk n "inputs.batch_size") :: post) b
      = some final) :
    getGraphPath final n ["inputs", "batch_size"] = some (.num b) := by
  unfold applyUserInputsToWorkflow at hrun
  rw [deepCopyFields_id, applyLoop_append] at hrun
  cases hpre : applyLoop ui b g pre with
  | none => rw [hpre] at hrun; exact absurd hrun (by simp)
  | some mid =>
    rw [hpre] at hrun
    replace hrun :
        applyLoop ui b mid (("batchSize", Mapping.mk n "inputs.batch_size") :: post)
          = some final := hrun
    rcases applyLoop_preserves_truthyAt hpre hnode with ⟨node, hlk, ht⟩
    have hae : applyEntry ui b mid ("batchSize", Mapping.mk n "inputs.batch_size")
        = (setByPath node (splitDot "inputs.batch_size") (.num b)).map (objSet mid n) := by
      unfold applyEntry
      rw [hlk]
      simp [ht]
    simp only [applyLoop, hae] at hrun
    cases hs : setByPath node (splitDot "inputs.batch_size") (JValue.num b) with
    | none => rw [hs] at hrun; exact absurd hrun (by simp)
    | some node2 =>
      rw [hs] at hrun
      replace hrun : applyLoop ui b (objSet mid n node2) post = some final := hrun
      have hget : getGraphPath (objSet mid n node2) n ["inputs", "batch_size"]
          = some (.num b) := by
        unfold getGraphPath
        rw [objLookup_objSet_self]
        have hsp : splitDot "inputs.batch_size" = ["inputs", "batch_size"] := rfl
        rw [← hsp]
        exact setByPath_get hs
      exact applyLoop_preserves_numAt hrun hpost hget

/-- C1 witness: a lone batch-size binding on `c1Graph`, with an unrelated
`batchSize` caller value of 99, writes the supplied batch size 4. -/
theorem claim1_batchSize_precedence_witness :
    applyUserInputsToWorkflow c1Graph [("batchSize", .num 99)]
        [("batchSize", ⟨"1", "inputs.batch_size"⟩)] 4
      = some [("1", .obj [("inputs", .obj [("batch_size", .num 4)])])] ∧
    getGraphPath [("1", JValue.obj [("inputs", JValue.obj [("batch_size", JValue.num 4)])])]
        "1" ["inputs", "batch_size"] = some (.num 4) := by
  constructor
  · rfl
  · exact claim1_batchSize_precedence_amended c1Graph [("batchSize", .num 99)] 4
      [] [] "1" [("1", .obj [("inputs", .obj [("batch_size", .num 4)])])]
      ⟨.obj [("inputs", .obj [("batch_size", .num 1)])], rfl, rfl⟩
      (fun e he => absurd he (List.not_mem_nil e))
      rfl

/-- C2: the composer performs no numeric coercion.  With the Parameter
Definition `c2Props` declaring value kind `number` and the host supplying
the string `"42"`, the gathered value is written into the mapped numeric
field verbatim as a string: the composed graph holds a non-numeric value at
`inputs.seed`, contradicting the claimed coercion. -/
theorem claim2_number_kind_not_coerced :
    c2Props.map ParamDef.type = ["number"] ∧
    gatherUserInputs c2Host c2Props = [("seed", .str "42")] ∧
    applyUserInputsToWorkflow c2Graph (gatherUserInputs c2Host c2Props)
        c2Mappings 1 = some c2Composed ∧
    getGraphPath c2Composed "3" ["inputs", "seed"] = some (.str "42") ∧
    isNumeric (.str "42") = false :=
  ⟨rfl, rfl, rfl, rfl, rfl⟩

/-- C7: when the await window elapses before any message, the timer handler
closes the notification channel, the await phase settles with the timeout
error and carries no result value, and the window is the 60-second
default. -/
theorem claim7_await_timeout :
    awaitFirstEvent .timerFired =
      { channelClosed := true
        result := .error "Job timed out. No response from Gatekeeper WebSocket." } ∧
    awaitTimeoutMs = 60000 :=
  ⟨rfl, rfl⟩

/-- C6: a Result Payload tagged as a batch fans out to exactly one
OutputItem per record, preserving record order, and a record whose format
tag matches none of `binary`, `filePath`, `text` yields the error item
carrying the raw record; `processResults` is total, so no record of the
batch is lost. -/
theorem claim6_batch_fanout (fr : JValue) (rs : List JValue)
    (hf : jsGet fr "format" = some (.str "multiple"))
    (hr : jsGet fr "results" = some (.arr rs)) :
    processResults fr = rs.map normalizeRecord ∧
    (processResults fr).length = rs.length ∧
    ∀ r ∈ rs, formatIs r "binary" = false → formatIs r "filePath" = false →
      formatIs r "text" = false → normalizeRecord r = batchErrorItem r := by
  have hp : processResults fr = rs.map normalizeRecord := by
    unfold processResults
    rw [hf, hr]
    rfl
  refine ⟨hp, by rw [hp]; exact List.length_map rs normalizeRecord, ?_⟩
  intro r _ h1 h2 h3
  unfold normalizeRecord
  rw [h1, h2, h3]
  rfl

/-- C6 witness: the three mixed records of `c6Payload` (binary, text, an
unknown tag) normalize to exactly three items in original order, the third
being the error item with the raw record. -/
theorem claim6_batch_fanout_witness :
    processResults c6Payload =
      [normalizeRecord c6r1, normalizeRecord c6r2, normalizeRecord c6r3] ∧
    (processResults c6Payload).length = 3 ∧
    normalizeRecord c6r3 = batchErrorItem c6r3 := by
  have h := claim6_batch_fanout c6Payload [c6r1, c6r2, c6r3] rfl rfl
  exact ⟨h.1, h.2.1, h.2.2 c6r3
    (List.mem_cons_of_mem _ (List.mem_cons_of_mem _ (List.mem_cons_self _ _)))
    rfl rfl rfl⟩

/-- C10: a record (batch or single) whose format tag is one of the
recognized values but whose data field is absent or falsy is normalized to
the error-plus-rawResult item, not to the format-specific fields. -/
theorem claim10_falsy_data_error_item (r : JValue)
    (_hrec : formatIs r "binary" = true ∨ formatIs r "filePath" = true ∨
      formatIs r "text" = true)
    (hd : dataTruthy r = false) :
    normalizeRecord r = batchErrorItem r ∧ normalizeSingle r = singleErrorItem r := by
  constructor
  · unfold normalizeRecord
    rw [hd]
    simp
  · unfold normalizeSingle
    rw [hd]
    simp

/-- C10 witness: a text record with empty-string data maps to the error
item on both the batch and the single path. -/
theorem claim10_falsy_data_error_item_witness :
    formatIs c10Record "text" = true ∧ dataTruthy c10Record = false ∧
    normalizeRecord c10Record = batchErrorItem c10Record ∧
    normalizeSingle c10Record = singleErrorItem c10Record :=
  ⟨rfl, rfl,
    (claim10_falsy_data_error_item c10Record (Or.inr (Or.inr rfl)) rfl).1,
    (claim10_falsy_data_error_item c10Record (Or.inr (Or.inr rfl)) rfl).2⟩

/-- C9: scanning a root whose entries contain no directory with an
accessible Graph Document file fails with the no-workflows error, and a
successful scan never returns an empty option list. -/
theorem claim9_no_templates_hard_error (entries : List DirEntry) :
    ((∀ e ∈ entries, ¬(e.isDirectory = true ∧ hasFile e "workflow.json" = true)) →
      getWorkflows entries =
        .error "No workflows found. Ensure each workflow folder contains a workflow.json file.") ∧
    (∀ l, getWorkflows entries = .ok l → l ≠ []) := by
  constructor
  · intro h
    have hf : entries.filter (fun e => e.isDirectory && hasFile e "workflow.json") = [] := by
      rw [List.filter_eq_nil_iff]
      intro e he
      have h2 := h e he
      intro hb
      rw [Bool.and_eq_true] at hb
      exact h2 hb
    simp only [getWorkflows, hf]
    rfl
  · intro l hl
    simp only [getWorkflows] at hl
    by_cases hc :
        (entries.filter (fun e => e.isDirectory && hasFile e "workflow.json")).map
          (fun e => e.name) = []
    · rw [if_pos hc] at hl
      exact absurd hl (by simp)
    · rw [if_neg hc] at hl
      injection hl with h2
      intro hnil
      rw [hnil] at h2
      exact hc (List.map_eq_nil_iff.mp h2)

/-- C9 witness: the empty root listing is a hard error. -/
theorem claim9_no_templates_hard_error_witness :
    getWorkflows [] =
      .error "No workflows found. Ensure each workflow folder contains a workflow.json file." :=
  (claim9_no_templates_hard_error []).1 (fun e he => absurd he (List.not_mem_nil e))

/-- C8 counterexample: `brokenEntry` holds a present-but-unparseable Graph
Document, yet the scan succeeds and returns it in the template list — the
scan checks only that the file is accessible and never parses it, so the
claimed exclusion does not happen. -/
theorem claim8_unparseable_template_counterexample :
    hasFile brokenEntry "workflow.json" = true ∧
    readParse brokenEntry "workflow.json" = none ∧
    getWorkflows [brokenEntry] =
      .ok [⟨"Broken Template", "broken-template", "Execute the broken-template workflow"⟩] :=
  ⟨rfl, rfl, rfl⟩

/-- C8 amended: a subdirectory whose Graph Document file is accessible is
included in the returned template list whether or not the document parses
(the scan completes and reports nothing about content); only an explicit
load of that template reads the document, and an unparseable one is fatal
for that load operation alone. -/
theorem claim8_unparseable_template_included_amended (entries : List DirEntry)
    (e : DirEntry) (hmem : e ∈ entries) (hdir : e.isDirectory = true)
    (hfile : hasFile e "workflow.json" = true) :
    (∃ l, getWorkflows entries = .ok l ∧ e.name ∈ l.map SelectOption.value) ∧
    (readParse e "workflow.json" = none →
      loadWorkflowConfigFromDisk e =
        .error ("Failed to load config for workflow '" ++ e.name ++ "'")) := by
  constructor
  · have hps : e ∈ entries.filter (fun x => x.isDirectory && hasFile x "workflow.json") :=
      List.mem_filter.mpr ⟨hmem, by rw [hdir, hfile]; rfl⟩
    have hname : e.name ∈
        (entries.filter (fun x => x.isDirectory && hasFile x "workflow.json")).map
          (fun x => x.name) :=
      List.mem_map_of_mem (fun x => x.name) hps
    have hne :
        (entries.filter (fun x => x.isDirectory && hasFile x "workflow.json")).map
          (fun x => x.name) ≠ [] :=
      List.ne_nil_of_mem hname
    refine ⟨((entries.filter (fun x => x.isDirectory && hasFile x "workflow.json")).map
        (fun x => x.name)).map (fun w =>
          { name := prettifyName w, value := w,
            description := "Execute the " ++ w ++ " workflow" }), ?_, ?_⟩
    · simp only [getWorkflows]
      rw [if_neg hne]
    · exact List.mem_map_of_mem SelectOption.value
        (List.mem_map_of_mem
          (fun w => { name := prettifyName w, value := w,
                      description := "Execute the " ++ w ++ " workflow" }) hname)
  · intro hnp
    unfold loadWorkflowConfigFromDisk
    rw [hnp]

/-- C8 witness: instantiating the amended statement at `brokenEntry`: it is
listed by the scan, and its explicit load fails with the load error. -/
theorem claim8_unparseable_template_included_witness :
    (∃ l, getWorkflows [brokenEntry] = .ok l ∧
      brokenEntry.name ∈ l.map SelectOption.value) ∧
    loadWorkflowConfigFromDisk brokenEntry =
      .error ("Failed to load config for workflow '" ++ brokenEntry.name ++ "'") := by
  have h := claim8_unparseable_template_included_amended [brokenEntry] brokenEntry
    (List.mem_cons_self _ _) rfl rfl
  exact ⟨h.1, h.2 rfl⟩

end YakNode
